import Mathlib

/-!
Verification of the inventory record reconciliation and spatial-location
validation engine of the Wright_Lab_Inventory_Tools repository.

The development shallowly embeds the relevant Python code:

* `clean_dataframe`    (src/inventory_helper.py, InventoryManagerBase)
* `validate_entries`, `validate_required_fields`, `add_data`, `remove_data`
                       (src/window_configure_helper.py, dataAddWindows)
* `validate_and_extract` (src/picker_helper.py, PickerHelper)
* `upload_file`        (src/data_helper.py, DriveManager)

Cell values of the pandas DataFrame are modelled by `Value` (integer, string,
or missing).  Python / pandas string primitives (`str.strip`, `str.upper`,
`int(...)`, `pd.to_numeric`, `pd.to_datetime`, `str(...)`/`astype(str)`) are
modelled by executable functions below, restricted to the value shapes that
actually flow through this program (ASCII text, decimal numerals,
slash-separated month-first dates).
-/

/-- Single-quote character as a string, used inside source error messages. -/
def sQuote : String := ⟨[Char.ofNat 39]⟩

/-- Whitespace set of Python `str.strip` (space, tab, LF, CR, VT, FF). -/
def isPyWS (c : Char) : Bool :=
  c = ' ' || c = '\t' || c = '\n' || c = '\r' || c = Char.ofNat 11 || c = Char.ofNat 12

/-- Drop trailing characters satisfying `p` (right half of `str.strip`). -/
def dropTrail (p : Char → Bool) : List Char → List Char
  | [] => []
  | c :: r =>
    match dropTrail p r with
    | [] => if p c then [] else [c]
    | h :: t => c :: h :: t

/-- Model of Python `str.strip()` on a character list. -/
def stripL (l : List Char) : List Char :=
  dropTrail isPyWS (l.dropWhile isPyWS)

/-- Model of Python `str.strip()`. -/
def stripStr (s : String) : String := ⟨stripL s.data⟩

/-- Model of Python `str.upper()` on one character (ASCII case map). -/
def upChar (c : Char) : Char :=
  if 97 ≤ c.toNat ∧ c.toNat ≤ 122 then Char.ofNat (c.toNat - 32) else c

/-- Model of Python `str.upper()`. -/
def upStr (s : String) : String := ⟨s.data.map upChar⟩

/-- Decimal digits of `n`, least significant first; `fuel` bounds recursion. -/
def digitsRev (fuel : Nat) (n : Nat) : List Nat :=
  match fuel with
  | 0 => []
  | f + 1 => if n = 0 then [] else n % 10 :: digitsRev f (n / 10)

/-- Decimal rendering of a natural number (model of Python `str` on `Nat`). -/
def natStr (n : Nat) : String :=
  if n = 0 then "0" else ⟨((digitsRev n n).map Nat.digitChar).reverse⟩

/-- Decimal rendering of an integer (model of Python `str` on `int`). -/
def intStr (n : Int) : String :=
  if n < 0 then "-" ++ natStr n.natAbs else natStr n.toNat

/-- Numeric value of one ASCII digit character. -/
def chVal (c : Char) : Nat := c.toNat - 48

/-- Value of a big-endian ASCII digit list. -/
def valNum (l : List Char) : Nat :=
  l.foldl (fun a c => 10 * a + chVal c) 0

/-- ASCII decimal digit test (model of the digit classes this program uses). -/
def isDig (c : Char) : Bool :=
  48 ≤ c.toNat && c.toNat ≤ 57

/-- Parse a nonempty all-digit character list as a natural number. -/
def parseNatL (l : List Char) : Option Nat :=
  if l ≠ [] ∧ l.all isDig then some (valNum l) else none

/-- Model of Python `int(str)`: strip, optional sign, nonempty digit run. -/
def pyInt (s : String) : Option Int :=
  match stripL s.data with
  | '-' :: r => (parseNatL r).map (fun n => -(n : Int))
  | '+' :: r => (parseNatL r).map (fun n => (n : Int))
  | t => (parseNatL t).map (fun n => (n : Int))

/-- Split a character list at every occurrence of `sep` (Python `str.split`). -/
def splitOnCh (sep : Char) : List Char → List (List Char)
  | [] => [[]]
  | c :: r =>
    if c = sep then [] :: splitOnCh sep r
    else
      match splitOnCh sep r with
      | [] => [[c]]
      | h :: t => (c :: h) :: t

/-- Join strings with a separator (Python `sep.join`). -/
def sepJoin (sep : String) : List String → String
  | [] => ""
  | [x] => x
  | x :: y :: t => x ++ sep ++ sepJoin sep (y :: t)

/-- Result of parsing a decimal numeral: truncated-toward-zero value and
whether the numeral was integral (fractional part absent or all zeros). -/
structure NumParse where
  trunc : Int
  integral : Bool
deriving DecidableEq, Repr

/-- Model of `float(...)` / `pd.to_numeric` on a string: optional sign and a
decimal numeral with optional fractional part (exponent forms are out of
scope for this program's data).  Returns the truncated value and an
integrality flag; `none` when the string is not numeric. -/
def parseNumeric (s : String) : Option NumParse :=
  let t := stripL s.data
  let sgn : Bool := match t with | '-' :: _ => true | _ => false
  let u : List Char := match t with
    | '-' :: r => r
    | '+' :: r => r
    | w => w
  match splitOnCh '.' u with
  | [ip] =>
    if ip ≠ [] ∧ ip.all isDig then
      some ⟨(if sgn then -(valNum ip : Int) else (valNum ip : Int)), true⟩
    else none
  | [ip, fp] =>
    if (ip ≠ [] ∨ fp ≠ []) ∧ ip.all isDig ∧ fp.all isDig then
      some ⟨(if sgn then -(valNum ip : Int) else (valNum ip : Int)),
            fp.all (· = '0')⟩
    else none
  | _ => none

/-! Basic lemmas about the string utilities. -/

theorem dropWhile_idem (p : Char → Bool) (l : List Char) :
    (l.dropWhile p).dropWhile p = l.dropWhile p := by
  induction l with
  | nil => rfl
  | cons c r ih =>
    by_cases h : p c
    · simpa [List.dropWhile, h] using ih
    · simp [List.dropWhile, h]

theorem dropTrail_cons_of_cons (p : Char → Bool) (c h : Char)
    (r t : List Char) (hr : dropTrail p r = h :: t) :
    dropTrail p (c :: r) = c :: h :: t := by
  simp only [dropTrail]
  rw [hr]

theorem dropTrail_idem (p : Char → Bool) (l : List Char) :
    dropTrail p (dropTrail p l) = dropTrail p l := by
  induction l with
  | nil => rfl
  | cons c r ih =>
    cases h : dropTrail p r with
    | nil =>
      by_cases hc : p c
      · simp [dropTrail, h, hc]
      · simp [dropTrail, h, hc]
    | cons h2 t2 =>
      have ih2 : dropTrail p (h2 :: t2) = h2 :: t2 := by rw [← h, ih, h]
      rw [dropTrail_cons_of_cons p c h2 r t2 h,
        dropTrail_cons_of_cons p c h2 (h2 :: t2) t2 ih2]

theorem dropWhile_head_not (p : Char → Bool) (l : List Char) :
    l.dropWhile p = [] ∨
      ∃ c r, l.dropWhile p = c :: r ∧ p c = false := by
  induction l with
  | nil => exact Or.inl rfl
  | cons c r ih =>
    by_cases h : p c
    · simpa [List.dropWhile, h] using ih
    · exact Or.inr ⟨c, r, by simp [List.dropWhile, h], by simpa using h⟩

theorem dropTrail_keep_head (p : Char → Bool) (c : Char) (r : List Char)
    (hc : p c = false) :
    dropTrail p (c :: r) = [] ∨
      ∃ t, dropTrail p (c :: r) = c :: t := by
  cases h : dropTrail p r with
  | nil => exact Or.inr ⟨[], by simp [dropTrail, h, hc]⟩
  | cons h2 t2 => exact Or.inr ⟨h2 :: t2, by simp [dropTrail, h]⟩

theorem dropWhile_stripL (l : List Char) :
    (stripL l).dropWhile isPyWS = stripL l := by
  unfold stripL
  rcases dropWhile_head_not isPyWS l with h | ⟨c, r, h, hc⟩
  · simp [h, dropTrail]
  · rw [h]
    rcases dropTrail_keep_head isPyWS c r hc with h2 | ⟨t, h2⟩
    · simp [h2]
    · simp [h2, List.dropWhile, hc]

theorem stripL_idem (l : List Char) : stripL (stripL l) = stripL l := by
  show dropTrail isPyWS ((stripL l).dropWhile isPyWS) = stripL l
  rw [dropWhile_stripL l]
  show dropTrail isPyWS (dropTrail isPyWS (l.dropWhile isPyWS)) = stripL l
  rw [dropTrail_idem]
  rfl

theorem dropWhile_all_not (p : Char → Bool) (l : List Char)
    (h : ∀ c ∈ l, p c = false) : l.dropWhile p = l := by
  cases l with
  | nil => rfl
  | cons c r => simp [List.dropWhile, h c (by simp)]

theorem dropTrail_all_not (p : Char → Bool) (l : List Char)
    (h : ∀ c ∈ l, p c = false) : dropTrail p l = l := by
  induction l with
  | nil => rfl
  | cons c r ih =>
    have hr : dropTrail p r = r := ih (fun x hx => h x (by simp [hx]))
    cases r with
    | nil => simp [dropTrail, h c (by simp)]
    | cons a b => exact dropTrail_cons_of_cons p c a (a :: b) b hr

theorem stripL_all_not (l : List Char) (h : ∀ c ∈ l, isPyWS c = false) :
    stripL l = l := by
  unfold stripL
  rw [dropWhile_all_not _ _ h, dropTrail_all_not _ _ h]

theorem toNat_ofNat_valid (n : Nat) (h : n.isValidChar) :
    (Char.ofNat n).toNat = n := by
  unfold Char.ofNat
  rw [dif_pos h]
  rfl

theorem upChar_idem (c : Char) : upChar (upChar c) = upChar c := by
  by_cases h : 97 ≤ c.toNat ∧ c.toNat ≤ 122
  · have key : upChar c = Char.ofNat (c.toNat - 32) := by
      unfold upChar
      rw [if_pos h]
    rw [key]
    unfold upChar
    rw [toNat_ofNat_valid _ (Or.inl (by omega))]
    rw [if_neg (by omega)]
  · have key : upChar c = c := by
      unfold upChar
      rw [if_neg h]
    rw [key]
    exact key

theorem upChar_map_idem (l : List Char) :
    (l.map upChar).map upChar = l.map upChar := by
  rw [List.map_map]
  exact List.map_congr_left (fun c _ => upChar_idem c)

/-! Numeral rendering and parsing round-trip. -/

theorem valNum_append_digit (l : List Char) (c : Char) :
    valNum (l ++ [c]) = 10 * valNum l + chVal c := by
  unfold valNum
  rw [List.foldl_append]
  rfl

theorem chVal_digitChar (d : Nat) (h : d < 10) :
    chVal (Nat.digitChar d) = d := by
  revert h
  revert d
  decide

theorem isDigit_digitChar (d : Nat) (h : d < 10) :
    isDig (Nat.digitChar d) = true := by
  revert h
  revert d
  decide

theorem digitsRev_lt (f n : Nat) : ∀ d ∈ digitsRev f n, d < 10 := by
  induction f generalizing n with
  | zero => intro d hd; simp [digitsRev] at hd
  | succ f ih =>
    intro d hd
    by_cases h : n = 0
    · simp [digitsRev, h] at hd
    · simp only [digitsRev, if_neg h, List.mem_cons] at hd
      rcases hd with hd | hd
      · subst hd
        exact Nat.mod_lt _ (by omega)
      · exact ih (n / 10) d hd

theorem digitsRev_val (f : Nat) : ∀ n, n ≤ f →
    valNum (((digitsRev f n).map Nat.digitChar).reverse) = n := by
  induction f with
  | zero =>
    intro n hn
    interval_cases n
    rfl
  | succ f ih =>
    intro n hn
    by_cases h : n = 0
    · simp [digitsRev, h, valNum]
    · have hrec : n / 10 ≤ f := by omega
      simp only [digitsRev, if_neg h, List.map_cons, List.reverse_cons]
      rw [valNum_append_digit, ih (n / 10) hrec,
        chVal_digitChar _ (Nat.mod_lt _ (by omega))]
      omega

theorem digitsRev_ne_nil (f n : Nat) (h0 : n ≠ 0) (hf : f ≠ 0) :
    digitsRev f n ≠ [] := by
  cases f with
  | zero => exact absurd rfl hf
  | succ f => simp [digitsRev, h0]

theorem natStr_all_digit (n : Nat) :
    ∀ c ∈ (natStr n).data, isDig c = true := by
  intro c hc
  unfold natStr at hc
  by_cases h : n = 0
  · rw [if_pos h] at hc
    have h0 : ("0" : String).data = ['0'] := rfl
    rw [h0] at hc
    simp at hc
    subst hc
    decide
  · rw [if_neg h] at hc
    simp only [List.mem_reverse, List.mem_map] at hc
    obtain ⟨d, hd, rfl⟩ := hc
    exact isDigit_digitChar d (digitsRev_lt n n d hd)

theorem natStr_ne_nil (n : Nat) : (natStr n).data ≠ [] := by
  unfold natStr
  by_cases h : n = 0
  · rw [if_pos h]
    intro hcon
    have h0 : ("0" : String).data = ['0'] := rfl
    rw [h0] at hcon
    exact List.cons_ne_nil _ _ hcon
  · rw [if_neg h]
    show ((digitsRev n n).map Nat.digitChar).reverse ≠ []
    intro hcon
    rw [List.reverse_eq_nil_iff, List.map_eq_nil_iff] at hcon
    exact digitsRev_ne_nil n n h h hcon

theorem parseNatL_natStr (n : Nat) : parseNatL (natStr n).data = some n := by
  unfold parseNatL
  rw [if_pos ⟨natStr_ne_nil n, by
    rw [List.all_eq_true]
    exact natStr_all_digit n⟩]
  congr 1
  unfold natStr
  by_cases h : n = 0
  · rw [if_pos h, h]
    decide
  · rw [if_neg h]
    exact digitsRev_val n n (Nat.le_refl n)

theorem valNum_cons_zero (l : List Char) :
    valNum ('0' :: l) = valNum l := by
  unfold valNum
  rfl

/-- Left-pad a numeral to two digits (model of `strftime` `%m` / `%d` / `%y`). -/
def pad2 (n : Nat) : String :=
  if n < 10 then "0" ++ natStr n else natStr n

/-- Left-pad a numeral to four digits (model of `strftime` `%Y`). -/
def pad4 (n : Nat) : String :=
  if n < 10 then "000" ++ natStr n
  else if n < 100 then "00" ++ natStr n
  else if n < 1000 then "0" ++ natStr n
  else natStr n

theorem parseNatL_cons_zero (l : List Char) (n : Nat)
    (h : parseNatL l = some n) : parseNatL ('0' :: l) = some n := by
  unfold parseNatL at h ⊢
  by_cases hc : l ≠ [] ∧ l.all isDig
  · rw [if_pos hc] at h
    rw [if_pos ⟨List.cons_ne_nil _ _, by
      rw [List.all_eq_true]
      intro c hcm
      rcases List.mem_cons.mp hcm with rfl | hcm
      · decide
      · exact (List.all_eq_true.mp hc.2) c hcm⟩]
    rw [valNum_cons_zero]
    exact h
  · rw [if_neg hc] at h
    exact absurd h (by simp)

theorem parseNatL_pad2 (n : Nat) : parseNatL (pad2 n).data = some n := by
  unfold pad2
  by_cases h : n < 10
  · rw [if_pos h]
    have hd : ("0" ++ natStr n).data = '0' :: (natStr n).data := rfl
    rw [hd]
    exact parseNatL_cons_zero _ _ (parseNatL_natStr n)
  · rw [if_neg h]
    exact parseNatL_natStr n

/-! Calendar dates.  `pd.to_datetime(..., dayfirst=False)` is modelled for the
slash-separated month-first forms this program reads and writes; out-of-range
components (and years outside the pandas `Timestamp` range) coerce to `NaT`,
i.e. `none`.  Two-digit years follow the dateutil windowing rule. -/

structure SimpleDate where
  month : Nat
  day : Nat
  year : Nat
deriving DecidableEq, Repr

/-- Gregorian leap-year rule. -/
def isLeap (y : Nat) : Bool :=
  y % 4 = 0 && (y % 100 != 0 || y % 400 = 0)

/-- Number of days in a month. -/
def daysInMonth (m y : Nat) : Nat :=
  if m = 2 then (if isLeap y then 29 else 28)
  else if m = 4 ∨ m = 6 ∨ m = 9 ∨ m = 11 then 30
  else 31

/-- Validity of a month-day-year triple, within the `Timestamp` year range. -/
def validDMY (m d y : Nat) : Bool :=
  1 ≤ m && m ≤ 12 && 1 ≤ d && d ≤ daysInMonth m y && 1678 ≤ y && y ≤ 2261

/-- Parse a slash-separated month-first date string. -/
def parseDate (s : String) : Option SimpleDate :=
  match splitOnCh '/' s.data with
  | [ms, ds, ys] =>
    match parseNatL ms, parseNatL ds, parseNatL ys with
    | some m, some d, some y0 =>
      let y := if ys.length ≤ 2 then (if y0 ≤ 68 then 2000 + y0 else 1900 + y0)
               else y0
      if validDMY m d y then some ⟨m, d, y⟩ else none
    | _, _, _ => none
  | _ => none

/-- Model of `strftime("%m/%d/%Y")` (four-digit year, used by bulk cleaning). -/
def fmtDate4 (dt : SimpleDate) : String :=
  pad2 dt.month ++ "/" ++ pad2 dt.day ++ "/" ++ pad4 dt.year

/-- Model of `strftime("%m/%d/%y")` (two-digit year, used by `validate_entries`). -/
def fmtDateY2 (dt : SimpleDate) : String :=
  pad2 dt.month ++ "/" ++ pad2 dt.day ++ "/" ++ pad2 (dt.year % 100)

theorem strApp_data (a b : String) : (a ++ b).data = a.data ++ b.data := rfl

theorem splitOnCh_no_sep (sep : Char) (a : List Char)
    (h : ∀ c ∈ a, c ≠ sep) : splitOnCh sep a = [a] := by
  induction a with
  | nil => rfl
  | cons c r ih =>
    have hc : c ≠ sep := h c (by simp)
    rw [show splitOnCh sep (c :: r) =
        (if c = sep then [] :: splitOnCh sep r
         else match splitOnCh sep r with
              | [] => [[c]]
              | h :: t => (c :: h) :: t) from rfl]
    rw [if_neg hc, ih (fun x hx => h x (by simp [hx]))]

theorem splitOnCh_append (sep : Char) (a r : List Char)
    (h : ∀ c ∈ a, c ≠ sep) :
    splitOnCh sep (a ++ sep :: r) = a :: splitOnCh sep r := by
  induction a with
  | nil => simp [splitOnCh]
  | cons c a2 ih =>
    have hc : c ≠ sep := h c (by simp)
    have ih2 := ih (fun x hx => h x (by simp [hx]))
    rw [List.cons_append]
    rw [show splitOnCh sep (c :: (a2 ++ sep :: r)) =
        (if c = sep then [] :: splitOnCh sep (a2 ++ sep :: r)
         else match splitOnCh sep (a2 ++ sep :: r) with
              | [] => [[c]]
              | h :: t => (c :: h) :: t) from rfl]
    rw [if_neg hc, ih2]

theorem digit_ne_slash (c : Char) (h : isDig c = true) : c ≠ '/' := by
  intro he
  subst he
  exact absurd h (by decide)

theorem digit_not_ws (c : Char) (h : isDig c = true) : isPyWS c = false := by
  by_contra hw
  simp only [Bool.not_eq_false] at hw
  simp only [isPyWS, Bool.or_eq_true, decide_eq_true_eq] at hw
  rcases hw with ((((hw | hw) | hw) | hw) | hw) | hw <;>
    (subst hw; exact absurd h (by decide))

theorem pad2_all_digit (n : Nat) : ∀ c ∈ (pad2 n).data, isDig c = true := by
  intro c hc
  unfold pad2 at hc
  by_cases h : n < 10
  · rw [if_pos h] at hc
    rw [strApp_data] at hc
    rcases List.mem_append.mp hc with hc | hc
    · have h0 : ("0" : String).data = ['0'] := rfl
      rw [h0] at hc
      simp at hc
      subst hc
      decide
    · exact natStr_all_digit n c hc
  · rw [if_neg h] at hc
    exact natStr_all_digit n c hc

theorem chVal_le_of_isDig (c : Char) (h : isDig c = true) : chVal c ≤ 9 := by
  simp only [isDig, Bool.and_eq_true, decide_eq_true_eq] at h
  unfold chVal
  omega

theorem valNum_lt_pow :
    ∀ (l : List Char), (∀ c ∈ l, isDig c = true) → ∀ (a : Nat),
      l.foldl (fun a c => 10 * a + chVal c) a < (a + 1) * 10 ^ l.length := by
  intro l
  induction l with
  | nil =>
    intro _ a
    simp
  | cons c r ih =>
    intro hd a
    have h1 := ih (fun x hx => hd x (by simp [hx])) (10 * a + chVal c)
    have h2 : (10 * a + chVal c + 1) * 10 ^ r.length ≤
        (a + 1) * 10 ^ (r.length + 1) := by
      have hc : chVal c ≤ 9 := chVal_le_of_isDig c (hd c (by simp))
      calc (10 * a + chVal c + 1) * 10 ^ r.length
          ≤ ((a + 1) * 10) * 10 ^ r.length :=
            Nat.mul_le_mul (by omega) (Nat.le_refl _)
        _ = (a + 1) * 10 ^ (r.length + 1) := by ring
    calc (c :: r).foldl (fun a c => 10 * a + chVal c) a
        = r.foldl (fun a c => 10 * a + chVal c) (10 * a + chVal c) := rfl
      _ < (10 * a + chVal c + 1) * 10 ^ r.length := h1
      _ ≤ (a + 1) * 10 ^ (r.length + 1) := h2
      _ = (a + 1) * 10 ^ (c :: r).length := by simp

theorem valNum_lt (l : List Char) (hd : ∀ c ∈ l, isDig c = true) :
    valNum l < 10 ^ l.length := by
  have := valNum_lt_pow l hd 0
  simpa [valNum] using this

theorem parseNatL_small (l : List Char) (n : Nat)
    (h : parseNatL l = some n) (hlen : l.length ≤ 2) : n < 100 := by
  unfold parseNatL at h
  by_cases hc : l ≠ [] ∧ l.all isDig
  · rw [if_pos hc] at h
    have hv := valNum_lt l (fun c hcm => (List.all_eq_true.mp hc.2) c hcm)
    have h10 : (10 : Nat) ^ l.length ≤ 10 ^ 2 :=
      Nat.pow_le_pow_right (by omega) hlen
    have hval : valNum l < 100 := by
      calc valNum l < 10 ^ l.length := hv
        _ ≤ 10 ^ 2 := h10
        _ = 100 := by norm_num
    have hn := Option.some.inj h
    omega
  · rw [if_neg hc] at h
    exact absurd h (by simp)

theorem pad4_eq_natStr (y : Nat) (h : 1000 ≤ y) : pad4 y = natStr y := by
  unfold pad4
  rw [if_neg (by omega), if_neg (by omega), if_neg (by omega)]

theorem natStr_length_ge (y : Nat) (h : 100 ≤ y) :
    ¬ (natStr y).data.length ≤ 2 := by
  intro hlen
  have hp := parseNatL_natStr y
  have := parseNatL_small _ _ hp hlen
  omega

theorem pad2_ne_slash (n : Nat) : ∀ c ∈ (pad2 n).data, c ≠ '/' := by
  intro c hc
  exact digit_ne_slash c (pad2_all_digit n c hc)

theorem natStr_ne_slash (n : Nat) : ∀ c ∈ (natStr n).data, c ≠ '/' := by
  intro c hc
  exact digit_ne_slash c (natStr_all_digit n c hc)

theorem fmtDate4_data (dt : SimpleDate) :
    (fmtDate4 dt).data =
      (pad2 dt.month).data ++ '/' ::
        ((pad2 dt.day).data ++ '/' :: (pad4 dt.year).data) := by
  unfold fmtDate4
  rw [strApp_data, strApp_data, strApp_data, strApp_data]
  have h1 : ("/" : String).data = ['/'] := rfl
  rw [h1]
  simp [List.append_assoc]

theorem parseDate_fmtDate4 (dt : SimpleDate)
    (h : validDMY dt.month dt.day dt.year = true) :
    parseDate (fmtDate4 dt) = some dt := by
  obtain ⟨m, d, y⟩ := dt
  simp only at h
  have hy : 1678 ≤ y ∧ y ≤ 2261 := by
    simp only [validDMY, Bool.and_eq_true, decide_eq_true_eq] at h
    exact ⟨h.1.2, h.2⟩
  unfold parseDate
  rw [fmtDate4_data]
  simp only
  rw [pad4_eq_natStr y (by omega)]
  rw [splitOnCh_append '/' _ _ (pad2_ne_slash m),
    splitOnCh_append '/' _ _ (pad2_ne_slash d),
    splitOnCh_no_sep '/' _ (natStr_ne_slash y)]
  simp only [parseNatL_pad2, parseNatL_natStr]
  rw [if_neg (natStr_length_ge y (by omega))]
  rw [if_pos h]

theorem ite_some_eq {α : Type} {c : Prop} [Decidable c] {a b : α}
    (h : (if c then some a else none) = some b) : c ∧ a = b := by
  split at h
  · exact ⟨by assumption, Option.some.inj h⟩
  · exact absurd h (by simp)

theorem parseDate_valid (s : String) (dt : SimpleDate)
    (h : parseDate s = some dt) :
    validDMY dt.month dt.day dt.year = true := by
  unfold parseDate at h
  split at h
  · split at h
    · dsimp only at h
      split at h <;>
      · obtain ⟨hc, rfl⟩ := ite_some_eq h
        simpa using hc
    all_goals exact absurd h (by simp)
  · exact absurd h (by simp)

/-! The data model.  A DataFrame cell is an integer, a string, or missing
(`NaN` / `None` / `Int64 NA` are collapsed into `naV`; where they stringify
differently, the two stringification functions below make the distinction the
code can observe: pandas `astype(str)` renders missing as "nan", Python
`str()` renders `None` as "None"). -/

inductive Value where
  | intV : Int → Value
  | strV : String → Value
  | naV : Value
deriving DecidableEq, Repr

/-- Model of pandas `Series.astype(str)` on one cell. -/
def pandasStr (v : Value) : String :=
  match v with
  | .intV n => intStr n
  | .strV s => s
  | .naV => "nan"

/-- Model of Python `str(...)` on one cell taken from a row dict. -/
def pyStr (v : Value) : String :=
  match v with
  | .intV n => intStr n
  | .strV s => s
  | .naV => "None"

/-- A row of the DataFrame: an association list from column name to cell. -/
abbrev RecordRow := List (String × Value)

/-- Cell of a row at a column; missing columns read as missing values. -/
def getVal (r : RecordRow) (c : String) : Value :=
  match r.lookup c with
  | some v => v
  | none => .naV

/-- The in-memory DataFrame: column order plus rows. -/
structure Df where
  columns : List String
  rows : List RecordRow
deriving DecidableEq, Repr

/-- Per-inventory configuration, mirroring the constructor arguments of
`dataAddWindows` and the getter overrides of `InventoryManagerBase`. -/
structure Schema where
  columns_to_sort_by : List String
  for_filled : List String
  location_column : String
  int_fields : List String
  remove_fields : List String
  label_column : String
  letterNums : List String
  date_column : Option String
  required_fields : List String
deriving Repr

/-! Model of `clean_dataframe` (src/inventory_helper.py lines 143-204).  The source
applies five passes over the frame: integer coercion, letter-number
filtering, date canonicalization, other-column stringification, and a final
`fillna`.  Every pass touches each column independently, so the embedding
processes the frame column by column, applying the passes in source order to
each cell.  The integer pass (`pd.to_numeric(...).astype("Int64")`) raises
when a value is numeric but not integral — that failure is the `Except`
error. -/

/-- ASCII letter test `[A-Za-z]`. -/
def isAl (c : Char) : Bool :=
  (65 ≤ c.toNat && c.toNat ≤ 90) || (97 ≤ c.toNat && c.toNat ≤ 122)

/-- Letter-number pattern `^[A-Za-z]{1}\\d+$` of the source. -/
def matchLN (s : String) : Bool :=
  match s.data with
  | [] => false
  | c :: rest => isAl c && rest ≠ [] && rest.all isDig

/-- Integer pass on one cell: `pd.to_numeric(col, errors="coerce").astype("Int64")`. -/
def cellInt (v : Value) : Except Unit Value :=
  match v with
  | .intV n => .ok (.intV n)
  | .naV => .ok .naV
  | .strV s =>
    match parseNumeric s with
    | some p => if p.integral then .ok (.intV p.trunc) else .error ()
    | none => .ok .naV

/-- Letter-number pass on one cell:
`astype(str).str.strip().str.upper()` kept under the pattern, else `NA`. -/
def cellLN (v : Value) : Value :=
  let s := upStr (stripStr (pandasStr v))
  if matchLN s then .strV s else .naV

/-- Model of `pd.to_datetime(cell, errors="coerce", dayfirst=False)`.
Integer cells (epoch offsets in pandas) do not occur in this program's date
columns and are treated as unparseable. -/
def toDT (v : Value) : Option SimpleDate :=
  match v with
  | .strV s => parseDate (stripStr s)
  | _ => none

/-- Date pass on one cell, including the immediate `fillna("")` of the
source: `strftime("%m/%d/%Y")` on success, empty string on `NaT`. -/
def cellDate (v : Value) : Value :=
  match toDT v with
  | some dt => .strV (fmtDate4 dt)
  | none => .strV ""

/-- Other-column pass: `astype(str).str.strip()` then `replace({"nan": ""})`. -/
def cellOther (v : Value) : Value :=
  let t := stripStr (pandasStr v)
  if t = "nan" then .strV "" else .strV t

/-- Final `fillna`: `-1` for integer columns, empty string otherwise. -/
def fillCell (isIntCol : Bool) (v : Value) : Value :=
  match v with
  | .naV => if isIntCol then .intV (-1) else .strV ""
  | w => w

/-- The full per-cell pipeline for a column that is in the integer set (`i`),
letter-number set (`l`), and/or is the date column (`d`), in source pass
order. -/
def cellPipe (i l d : Bool) (v : Value) : Except Unit Value := do
  let v1 ← if i then cellInt v else .ok v
  let v2 := if l then cellLN v1 else v1
  let v3 := if d then cellDate v2 else v2
  let v4 := if !i && !l && !d then cellOther v3 else v3
  .ok (fillCell i v4)

/-- Monadic map over `Except Unit`, with explicit equations. -/
def mapE {α β : Type} (f : α → Except Unit β) : List α → Except Unit (List β)
  | [] => .ok []
  | x :: r =>
    match f x with
    | .error e => .error e
    | .ok y =>
      match mapE f r with
      | .error e => .error e
      | .ok ys => .ok (y :: ys)

/-- Column-role tests of a schema. -/
def isIntCol (sch : Schema) (name : String) : Bool :=
  sch.int_fields.contains name

/-- Membership in the letter-number column set. -/
def isLNCol (sch : Schema) (name : String) : Bool :=
  sch.letterNums.contains name

/-- Test for the (optional) date column. -/
def isDateCol (sch : Schema) (name : String) : Bool :=
  match sch.date_column with
  | some dc => name == dc
  | none => false

/-- Clean one named column. -/
def cleanColumn (sch : Schema) (name : String) (cells : List Value) :
    Except Unit (List Value) :=
  mapE (cellPipe (isIntCol sch name) (isLNCol sch name) (isDateCol sch name))
    cells

/-- A raw table: named columns of cells (the spreadsheet sheet contents). -/
abbrev Table := List (String × List Value)

/-- Model of `InventoryManagerBase.clean_dataframe`. -/
def clean_dataframe (sch : Schema) (t : Table) : Except Unit Table :=
  mapE (fun col =>
    match cleanColumn sch col.1 col.2 with
    | .error e => .error e
    | .ok cleaned => .ok (col.1, cleaned)) t

/-! Character-class lemmas used by the idempotence argument. -/

theorem isDig_not_isAl (c : Char) (h : isDig c = true) : isAl c = false := by
  simp only [isDig, Bool.and_eq_true, decide_eq_true_eq] at h
  simp only [isAl, Bool.or_eq_false_iff, Bool.and_eq_false_iff]
  constructor
  · left
    simp only [decide_eq_false_iff_not]
    omega
  · left
    simp only [decide_eq_false_iff_not]
    omega

theorem isAl_not_ws (c : Char) (h : isAl c = true) : isPyWS c = false := by
  simp only [isAl, Bool.or_eq_true, Bool.and_eq_true, decide_eq_true_eq] at h
  by_contra hw
  simp only [Bool.not_eq_false] at hw
  simp only [isPyWS, Bool.or_eq_true, decide_eq_true_eq] at hw
  have hval : c.toNat = 32 ∨ c.toNat = 9 ∨ c.toNat = 10 ∨ c.toNat = 13 ∨
      c.toNat = 11 ∨ c.toNat = 12 := by
    rcases hw with ((((hw | hw) | hw) | hw) | hw) | hw <;> subst hw <;> simp
  omega

theorem isAl_ne_slash (c : Char) (h : isAl c = true) : c ≠ '/' := by
  intro he
  subst he
  exact absurd h (by decide)

theorem isAl_ne_dot (c : Char) (h : isAl c = true) : c ≠ '.' := by
  intro he
  subst he
  exact absurd h (by decide)

theorem digit_ne_dot (c : Char) (h : isDig c = true) : c ≠ '.' := by
  intro he
  subst he
  exact absurd h (by decide)

theorem upChar_digit (c : Char) (h : isDig c = true) : upChar c = c := by
  simp only [isDig, Bool.and_eq_true, decide_eq_true_eq] at h
  unfold upChar
  rw [if_neg (by omega)]

theorem upChar_ne_lower (c : Char) (h : ¬ (97 ≤ c.toNat ∧ c.toNat ≤ 122)) :
    upChar c = c := by
  unfold upChar
  rw [if_neg h]

theorem matchLN_chars (s : String) (h : matchLN s = true) :
    ∀ c ∈ s.data, isAl c = true ∨ isDig c = true := by
  unfold matchLN at h
  intro c hc
  rcases hd : s.data with _ | ⟨c0, rest⟩
  · rw [hd] at hc
    simp at hc
  · rw [hd] at h hc
    simp only [Bool.and_eq_true] at h
    rcases List.mem_cons.mp hc with rfl | hc
    · exact Or.inl h.1.1
    · exact Or.inr ((List.all_eq_true.mp h.2) c hc)

theorem matchLN_strip (s : String) (h : matchLN s = true) :
    stripStr s = s := by
  have hchars := matchLN_chars s h
  have hall : ∀ c ∈ s.data, isPyWS c = false := by
    intro c hc
    rcases hchars c hc with h2 | h2
    · exact isAl_not_ws c h2
    · exact digit_not_ws c h2
  unfold stripStr
  rw [stripL_all_not s.data hall]

theorem upStr_idem (s : String) : upStr (upStr s) = upStr s := by
  unfold upStr
  rw [show (⟨s.data.map upChar⟩ : String).data = s.data.map upChar from rfl]
  rw [upChar_map_idem]

theorem stripStr_idem (s : String) : stripStr (stripStr s) = stripStr s := by
  unfold stripStr
  rw [show (⟨stripL s.data⟩ : String).data = stripL s.data from rfl]
  rw [stripL_idem]

theorem pad4_all_digit (n : Nat) : ∀ c ∈ (pad4 n).data, isDig c = true := by
  intro c hc
  unfold pad4 at hc
  have h0 : ∀ (pre : String), (∀ x ∈ pre.data, isDig x = true) →
      c ∈ (pre ++ natStr n).data → isDig c = true := by
    intro pre hpre hmem
    rw [strApp_data] at hmem
    rcases List.mem_append.mp hmem with hm | hm
    · exact hpre c hm
    · exact natStr_all_digit n c hm
  split at hc
  · exact h0 "000" (by decide) hc
  · split at hc
    · exact h0 "00" (by decide) hc
    · split at hc
      · exact h0 "0" (by decide) hc
      · exact natStr_all_digit n c hc

theorem fmtDate4_chars (dt : SimpleDate) :
    ∀ c ∈ (fmtDate4 dt).data, isDig c = true ∨ c = '/' := by
  intro c hc
  rw [fmtDate4_data] at hc
  rcases List.mem_append.mp hc with hm | hm
  · exact Or.inl (pad2_all_digit _ c hm)
  · rcases List.mem_cons.mp hm with rfl | hm
    · exact Or.inr rfl
    · rcases List.mem_append.mp hm with hm2 | hm2
      · exact Or.inl (pad2_all_digit _ c hm2)
      · rcases List.mem_cons.mp hm2 with rfl | hm2
        · exact Or.inr rfl
        · exact Or.inl (pad4_all_digit _ c hm2)

theorem slash_not_ws : isPyWS '/' = false := by decide

theorem fmtDate4_strip (dt : SimpleDate) :
    stripStr (fmtDate4 dt) = fmtDate4 dt := by
  unfold stripStr
  rw [stripL_all_not]
  intro c hc
  rcases fmtDate4_chars dt c hc with h | rfl
  · exact digit_not_ws c h
  · exact slash_not_ws

/-! Reduction lemmas for `cellPipe` and shape lemmas for its building blocks. -/

theorem pipe_FFF (v : Value) :
    cellPipe false false false v = .ok (fillCell false (cellOther v)) := by
  simp [cellPipe, Bind.bind, Except.bind]

theorem pipe_FTF (v : Value) :
    cellPipe false true false v = .ok (fillCell false (cellLN v)) := by
  simp [cellPipe, Bind.bind, Except.bind]

theorem pipe_FFT (v : Value) :
    cellPipe false false true v = .ok (fillCell false (cellDate v)) := by
  simp [cellPipe, Bind.bind, Except.bind]

theorem pipe_FTT (v : Value) :
    cellPipe false true true v = .ok (fillCell false (cellDate (cellLN v))) := by
  simp [cellPipe, Bind.bind, Except.bind]

theorem pipe_TFF (v u : Value) (h : cellInt v = .ok u) :
    cellPipe true false false v = .ok (fillCell true u) := by
  simp [cellPipe, h, Bind.bind, Except.bind]

theorem pipe_TTF (v u : Value) (h : cellInt v = .ok u) :
    cellPipe true true false v = .ok (fillCell true (cellLN u)) := by
  simp [cellPipe, h, Bind.bind, Except.bind]

theorem pipe_TFT (v u : Value) (h : cellInt v = .ok u) :
    cellPipe true false true v = .ok (fillCell true (cellDate u)) := by
  simp [cellPipe, h, Bind.bind, Except.bind]

theorem pipe_TTT (v u : Value) (h : cellInt v = .ok u) :
    cellPipe true true true v = .ok (fillCell true (cellDate (cellLN u))) := by
  simp [cellPipe, h, Bind.bind, Except.bind]

theorem pipe_T_err (l d : Bool) (v : Value) (h : cellInt v = .error ()) :
    cellPipe true l d v = .error () := by
  simp [cellPipe, h, Bind.bind, Except.bind]

theorem cellInt_shape (v u : Value) (h : cellInt v = .ok u) :
    (∃ n, u = .intV n) ∨ u = .naV := by
  rcases v with n | s | _
  · simp only [cellInt] at h
    exact Or.inl ⟨n, (Except.ok.inj h).symm⟩
  · simp only [cellInt] at h
    rcases hp : parseNumeric s with _ | p <;> simp only [hp] at h
    · exact Or.inr (Except.ok.inj h).symm
    · split at h
      · exact Or.inl ⟨p.trunc, (Except.ok.inj h).symm⟩
      · exact absurd h (by simp)
  · simp only [cellInt] at h
    exact Or.inr (Except.ok.inj h).symm

theorem cellOther_shape (v : Value) :
    ∃ t, cellOther v = .strV t ∧ stripStr t = t ∧ t ≠ "nan" := by
  unfold cellOther
  by_cases h : stripStr (pandasStr v) = "nan"
  · exact ⟨"", by rw [if_pos h], rfl, by decide⟩
  · exact ⟨stripStr (pandasStr v), by rw [if_neg h], stripStr_idem _, h⟩

theorem natStr_data_cons (n : Nat) :
    ∃ c rest, (natStr n).data = c :: rest ∧ isDig c = true := by
  rcases hd : (natStr n).data with _ | ⟨c, rest⟩
  · exact absurd hd (natStr_ne_nil n)
  · exact ⟨c, rest, rfl, natStr_all_digit n c (by rw [hd]; simp)⟩

theorem intStr_chars (n : Int) :
    ∀ c ∈ (intStr n).data, c = '-' ∨ isDig c = true := by
  intro c hc
  unfold intStr at hc
  split at hc
  · rw [strApp_data] at hc
    rcases List.mem_append.mp hc with hm | hm
    · have h1 : ("-" : String).data = ['-'] := rfl
      rw [h1] at hm
      simp at hm
      exact Or.inl hm
    · exact Or.inr (natStr_all_digit _ c hm)
  · exact Or.inr (natStr_all_digit _ c hc)

theorem intStr_strip (n : Int) : stripStr (intStr n) = intStr n := by
  unfold stripStr
  rw [stripL_all_not]
  intro c hc
  rcases intStr_chars n c hc with rfl | h
  · decide
  · exact digit_not_ws c h

theorem intStr_up (n : Int) : upStr (intStr n) = intStr n := by
  unfold upStr
  have hfix : ∀ c ∈ (intStr n).data, upChar c = c := by
    intro c hc
    rcases intStr_chars n c hc with rfl | h
    · decide
    · exact upChar_digit c h
  rw [show (intStr n).data.map upChar = (intStr n).data.map id from
    List.map_congr_left (fun c hc => hfix c hc), List.map_id]

theorem matchLN_of_head (s : String) (c : Char) (rest : List Char)
    (hd : s.data = c :: rest) (h : isAl c = false) : matchLN s = false := by
  unfold matchLN
  rw [hd]
  simp [h]

theorem matchLN_intStr (n : Int) : matchLN (intStr n) = false := by
  by_cases hn : n < 0
  · have hd : (intStr n).data = '-' :: (natStr n.natAbs).data := by
      unfold intStr
      rw [if_pos hn]
      rfl
    exact matchLN_of_head _ _ _ hd (by decide)
  · have hd : intStr n = natStr n.toNat := by
      unfold intStr
      rw [if_neg hn]
    rcases natStr_data_cons n.toNat with ⟨c, rest, hdd, hdig⟩
    rw [hd]
    exact matchLN_of_head _ _ _ hdd (isDig_not_isAl c hdig)

theorem cellLN_intV (n : Int) : cellLN (.intV n) = .naV := by
  simp [cellLN, pandasStr, intStr_strip, intStr_up, matchLN_intStr]

theorem cellLN_naV : cellLN .naV = .naV := by decide

theorem toDT_valid (v : Value) (dt : SimpleDate) (h : toDT v = some dt) :
    validDMY dt.month dt.day dt.year = true := by
  unfold toDT at h
  rcases v with _ | s | _
  · exact absurd h (by simp)
  · exact parseDate_valid _ dt h
  · exact absurd h (by simp)

theorem parseDate_matchLN (s : String) (h : matchLN s = true) :
    parseDate (stripStr s) = none := by
  rw [matchLN_strip s h]
  unfold parseDate
  rw [splitOnCh_no_sep '/' s.data (fun c hc => by
    rcases matchLN_chars s h c hc with h2 | h2
    · exact isAl_ne_slash c h2
    · exact digit_ne_slash c h2)]

theorem cellDate_fmt_fixed (dt : SimpleDate)
    (h : validDMY dt.month dt.day dt.year = true) :
    cellDate (.strV (fmtDate4 dt)) = .strV (fmtDate4 dt) := by
  simp only [cellDate, toDT]
  rw [fmtDate4_strip, parseDate_fmtDate4 dt h]

theorem cellLN_fixed (s : String) (hm : matchLN s = true)
    (him : upStr s = s) : cellLN (.strV s) = .strV s := by
  simp only [cellLN, pandasStr]
  rw [matchLN_strip s hm, him, if_pos hm]

theorem cellOther_fixed (t : String) (hs : stripStr t = t) (hn : t ≠ "nan") :
    cellOther (.strV t) = .strV t := by
  simp only [cellOther, pandasStr]
  rw [hs, if_neg hn]

/-- Shape of the letter-number pass output. -/
theorem cellLN_shape (v : Value) :
    (∃ y, cellLN v = .strV (upStr y) ∧ matchLN (upStr y) = true) ∨
      cellLN v = .naV := by
  simp only [cellLN]
  by_cases hm : matchLN (upStr (stripStr (pandasStr v))) = true
  · exact Or.inl ⟨stripStr (pandasStr v), by rw [if_pos hm], hm⟩
  · right
    rw [if_neg hm]

/-- Shape of the date pass output. -/
theorem cellDate_shape (v : Value) :
    (∃ dt, cellDate v = .strV (fmtDate4 dt) ∧
      validDMY dt.month dt.day dt.year = true) ∨
      cellDate v = .strV "" := by
  simp only [cellDate]
  rcases ht : toDT v with _ | dt
  · exact Or.inr rfl
  · exact Or.inl ⟨dt, rfl, toDT_valid v dt ht⟩

/-- One cleaned cell is a fixed point of its own cleaning pipeline. -/
theorem cellPipe_idem (i l d : Bool) (v w : Value)
    (h : cellPipe i l d v = .ok w) : cellPipe i l d w = .ok w := by
  cases i
  · cases l
    · cases d
      · -- other-column pass only
        rw [pipe_FFF] at h
        obtain ⟨t, ht, hs, hn⟩ := cellOther_shape v
        rw [ht] at h
        obtain rfl : Value.strV t = w := Except.ok.inj h
        rw [pipe_FFF, cellOther_fixed t hs hn]
        rfl
      · -- date pass only
        rw [pipe_FFT] at h
        rcases cellDate_shape v with ⟨dt, hd, hv⟩ | hd <;> rw [hd] at h
        · obtain rfl : Value.strV (fmtDate4 dt) = w := Except.ok.inj h
          rw [pipe_FFT, cellDate_fmt_fixed dt hv]
          rfl
        · obtain rfl : Value.strV "" = w := Except.ok.inj h
          rfl
    · cases d
      · -- letter-number pass only
        rw [pipe_FTF] at h
        rcases cellLN_shape v with ⟨y, hl, hm⟩ | hl <;> rw [hl] at h
        · obtain rfl : Value.strV (upStr y) = w := Except.ok.inj h
          rw [pipe_FTF, cellLN_fixed (upStr y) hm (upStr_idem y)]
          rfl
        · obtain rfl : Value.strV "" = w := Except.ok.inj h
          rfl
      · -- letter-number then date pass
        rw [pipe_FTT] at h
        rcases cellLN_shape v with ⟨y, hl, hm⟩ | hl <;> rw [hl] at h
        · have hdate : cellDate (.strV (upStr y)) = .strV "" := by
            simp only [cellDate, toDT]
            rw [parseDate_matchLN (upStr y) hm]
          rw [hdate] at h
          obtain rfl : Value.strV "" = w := Except.ok.inj h
          rfl
        · rw [show cellDate Value.naV = .strV "" from rfl] at h
          obtain rfl : Value.strV "" = w := Except.ok.inj h
          rfl
  · rcases he : cellInt v with _ | u
    · cases l <;> cases d <;>
        (rw [pipe_T_err _ _ v he] at h; exact absurd h (by simp))
    · cases l
      · cases d
        · -- integer pass only
          rw [pipe_TFF v u he] at h
          rcases cellInt_shape v u he with ⟨n, rfl⟩ | rfl
          · obtain rfl : Value.intV n = w := Except.ok.inj h
            rw [pipe_TFF _ _ (show cellInt (.intV n) = .ok (.intV n) from rfl)]
            rfl
          · obtain rfl : Value.intV (-1) = w := Except.ok.inj h
            rfl
        · -- integer then date pass
          rw [pipe_TFT v u he] at h
          have hdd : cellDate u = .strV "" := by
            rcases cellInt_shape v u he with ⟨n, rfl⟩ | rfl <;> rfl
          rw [hdd] at h
          obtain rfl : Value.strV "" = w := Except.ok.inj h
          rfl
      · cases d
        · -- integer then letter-number pass
          rw [pipe_TTF v u he] at h
          have hln : cellLN u = .naV := by
            rcases cellInt_shape v u he with ⟨n, rfl⟩ | rfl
            · exact cellLN_intV n
            · exact cellLN_naV
          rw [hln] at h
          obtain rfl : Value.intV (-1) = w := Except.ok.inj h
          rfl
        · -- integer, letter-number, and date passes
          rw [pipe_TTT v u he] at h
          have hln : cellLN u = .naV := by
            rcases cellInt_shape v u he with ⟨n, rfl⟩ | rfl
            · exact cellLN_intV n
            · exact cellLN_naV
          rw [hln] at h
          obtain rfl : Value.strV "" = w := Except.ok.inj h
          rfl

/-- Idempotence lifts through `mapE`. -/
theorem mapE_idem {α : Type} (f : α → Except Unit α)
    (hf : ∀ v w, f v = .ok w → f w = .ok w) :
    ∀ (xs ys : List α), mapE f xs = .ok ys → mapE f ys = .ok ys := by
  intro xs
  induction xs with
  | nil =>
    intro ys h
    obtain rfl : [] = ys := by simpa [mapE] using h
    rfl
  | cons x r ih =>
    intro ys h
    simp only [mapE] at h
    rcases hx : f x with _ | y <;> rw [hx] at h
    · exact absurd h (by simp)
    · rcases hr : mapE f r with _ | yr <;> rw [hr] at h
      · exact absurd h (by simp)
      · obtain rfl : y :: yr = ys := by simpa using h
        simp only [mapE]
        rw [hf x y hx, ih yr hr]

/-- A cleaned column is a fixed point of column cleaning. -/
theorem cleanColumn_idem (sch : Schema) (name : String)
    (cells cells' : List Value)
    (h : cleanColumn sch name cells = .ok cells') :
    cleanColumn sch name cells' = .ok cells' := by
  unfold cleanColumn at h ⊢
  exact mapE_idem _ (cellPipe_idem _ _ _) cells cells' h

/-- Cleaning a table is idempotent. -/
theorem clean_dataframe_idem (sch : Schema) (t t' : Table)
    (h : clean_dataframe sch t = .ok t') :
    clean_dataframe sch t' = .ok t' := by
  unfold clean_dataframe at h ⊢
  refine mapE_idem _ ?_ t t' h
  intro v w hv
  rcases hc : cleanColumn sch v.1 v.2 with _ | wc <;> rw [hc] at hv
  · exact absurd hv (by simp)
  · obtain rfl : (v.1, wc) = w := by simpa using hv
    simp only
    rw [cleanColumn_idem sch v.1 v.2 wc hc]

/-! Validation of user entries (`dataAddWindows.validate_entries` and
`validate_required_fields`, src/window_configure_helper.py lines 390-509).
User input is a list of (field, raw text) pairs in widget order. -/

/-- A cleaned entry: a single value, or the list a multi-location field holds. -/
inductive Entry where
  | one : Value → Entry
  | many : List Value → Entry
deriving DecidableEq, Repr

/-- The dictionary `cleaned_data` built by `validate_entries`. -/
abbrev CleanedData := List (String × Entry)

/-- Scalar read of an entry; a list outside the location column does not
occur in this program (only the location column is stored as a list). -/
def entryVal : Entry → Value
  | .one v => v
  | .many _ => .naV

/-- Python `str(...)` of an entry value (for the removal masks). -/
def pyStrEntry : Entry → String
  | .one v => pyStr v
  | .many _ => ""

/-- Split a raw string on commas. -/
def splitComma (s : String) : List String :=
  (splitOnCh ',' s.data).map (fun l => ⟨l⟩)

/-- Comma tokens, stripped, empties dropped (the list comprehensions of the
location branches). -/
def locTokens (rv : String) : List String :=
  ((splitComma rv).map stripStr).filter (fun t => t ≠ "")

/-- Location-branch error and success handling for integer locations. -/
def validateIntLocs (field : String) : List String → Except String (List Value)
  | [] => .ok []
  | loc :: rest =>
    match pyInt loc with
    | some n =>
      match validateIntLocs field rest with
      | .error m => .error m
      | .ok vs => .ok (.intV n :: vs)
    | none =>
      .error ("Invalid value for " ++ field ++ ": " ++ sQuote ++ loc ++ sQuote
        ++ " must be an integer")

/-- Location-branch validation for letter-number locations (tokens are
already uppercased). -/
def validateLNLocs (field : String) : List String → Except String (List Value)
  | [] => .ok []
  | loc :: rest =>
    if matchLN loc then
      match validateLNLocs field rest with
      | .error m => .error m
      | .ok vs => .ok (.strV loc :: vs)
    else
      .error ("Invalid format for " ++ field ++
        ": must be one letter followed by a number (e.g., A1)")

/-- Per-field rule of `validate_entries`, in source precedence. -/
def validateField (sch : Schema) (field rv : String) : Except String Entry :=
  if sch.int_fields.contains field then
    (if field == sch.location_column then
      match validateIntLocs field (locTokens rv) with
      | .error m => .error m
      | .ok vs => .ok (.many vs)
    else
      match pyInt rv with
      | some n => .ok (.one (.intV n))
      | none => .error ("Invalid value for " ++ field ++ ": must be an integer"))
  else if sch.letterNums.contains field then
    (if field == sch.location_column then
      match validateLNLocs field ((locTokens rv).map upStr) with
      | .error m => .error m
      | .ok vs => .ok (.many vs)
    else
      if matchLN rv then .ok (.one (.strV (upStr rv)))
      else .error ("Invalid format for " ++ field ++
        ": must be one letter followed by a number (e.g., A1)"))
  else if isDateCol sch field then
    (match parseDate (stripStr rv) with
    | some dt => .ok (.one (.strV (fmtDateY2 dt)))
    | none => .error ("Invalid format for " ++ field ++
        ". Please use MM/DD/YYYY (e.g., 06/30/2025)."))
  else .ok (.one (.strV rv))

/-- Model of `dataAddWindows.validate_entries`.  Empty entries are skipped;
the first failing field aborts with its message. -/
def validate_entries (sch : Schema) :
    List (String × String) → Except String CleanedData
  | [] => .ok []
  | (field, raw) :: rest =>
    let rv := stripStr raw
    if rv = "" then validate_entries sch rest
    else
      match validateField sch field rv with
      | .error m => .error m
      | .ok e =>
        match validate_entries sch rest with
        | .error m => .error m
        | .ok tail => .ok ((field, e) :: tail)

/-- Raw widget text of a field (missing fields read as empty). -/
def lookupEntry (entries : List (String × String)) (f : String) : String :=
  match entries.lookup f with
  | some v => v
  | none => ""

/-- Model of `dataAddWindows.validate_required_fields`: reports every
missing required field at once. -/
def validate_required_fields (sch : Schema)
    (entries : List (String × String)) : Except String Unit :=
  let missing := sch.required_fields.filter
    (fun f => stripStr (lookupEntry entries f) == "")
  if missing.isEmpty then .ok ()
  else .error ("Please fill in: " ++ sepJoin ", " missing)

/-! The add and remove operations (`dataAddWindows.add_data` lines 214-296,
`dataAddWindows.remove_data` lines 298-388).  The confirmation dialogs are a
boolean input.  `sort_values` is modelled by an insertion sort over the
schema's sort columns with a total order on cells; the claims below depend
only on the sorted list being a permutation. -/

/-- Total comparison of cells used to model the post-mutation re-sort. -/
def cmpValue : Value → Value → Ordering
  | .naV, .naV => .eq
  | .naV, _ => .lt
  | _, .naV => .gt
  | .intV m, .intV n => compare m n
  | .intV _, .strV _ => .lt
  | .strV _, .intV _ => .gt
  | .strV s, .strV t => compare s t

/-- Lexicographic comparison of two rows over the sort columns. -/
def cmpRows (cols : List String) (a b : RecordRow) : Ordering :=
  match cols with
  | [] => .eq
  | c :: rest =>
    match cmpValue (getVal a c) (getVal b c) with
    | .eq => cmpRows rest a b
    | o => o

/-- Row order as a Boolean relation. -/
def rowLEb (sch : Schema) (a b : RecordRow) : Bool :=
  cmpRows sch.columns_to_sort_by a b ≠ Ordering.gt

/-- Model of `DataFrame.sort_values(by=columns_to_sort_by)`. -/
def sortRows (sch : Schema) (rows : List RecordRow) : List RecordRow :=
  rows.insertionSort (fun a b => rowLEb sch a b = true)

theorem sortRows_perm (sch : Schema) (rows : List RecordRow) :
    sortRows sch rows = rows ∨ (sortRows sch rows).Perm rows := by
  exact Or.inr (List.perm_insertionSort _ rows)

/-- Integer cast applied to each stored cell of an integer column
(`int(val)` with `ValueError` mapped to `None`). -/
def storedVal (sch : Schema) (c : String) (v : Value) : Value :=
  if sch.int_fields.contains c then
    match v with
    | .intV n => .intV n
    | .strV s =>
      match pyInt s with
      | some n => .intV n
      | none => .naV
    | .naV => .naV
  else v

/-- Cell stored for a (stripped) column of a candidate row: the cleaned
value (the location for the location column), integer-cast for integer
columns, `None` when the user gave no input for the column. -/
def builtCell (sch : Schema) (cleaned : CleanedData) (loc : Value)
    (c : String) : Value :=
  match cleaned.lookup c with
  | some e => storedVal sch c (if c = sch.location_column then loc else entryVal e)
  | none => .naV

/-- Build one candidate row for a location, copying the cleaned values over
the (stripped) DataFrame columns; columns without user input become `None`. -/
def buildRow (sch : Schema) (cols : List String) (cleaned : CleanedData)
    (loc : Value) : RecordRow :=
  cols.map (fun c0 => (stripStr c0, builtCell sch cleaned loc (stripStr c0)))

/-- All candidate rows of one add submission. -/
def buildNewRows (sch : Schema) (cols : List String) (cleaned : CleanedData)
    (locs : List Value) : List RecordRow :=
  locs.map (buildRow sch cols cleaned)

/-- The conflict mask of `add_data`: an existing row matches a candidate row
when every `for_filled` column and the location column agree as trimmed
strings (`astype(str).str.strip()` against `str(row[col]).strip()`). -/
def maskMatch (sch : Schema) (newRow old : RecordRow) : Bool :=
  (sch.for_filled.all (fun c =>
    stripStr (pandasStr (getVal old c)) == stripStr (pyStr (getVal newRow c))))
  && (stripStr (pandasStr (getVal old sch.location_column)) ==
      stripStr (pyStr (getVal newRow sch.location_column)))

/-- The `conflict_locations` frame: for each candidate row, the existing rows its mask
selects, concatenated in candidate order. -/
def conflictRows (sch : Schema) (df : Df) (newRows : List RecordRow) :
    List RecordRow :=
  newRows.flatMap (fun nr => df.rows.filter (fun old => maskMatch sch nr old))

/-- Model of `", ".join(...)` over a location column: joining raises
`TypeError` as soon as a non-string cell is iterated. -/
def joinComma (vals : List Value) : Except Unit String :=
  if vals.all (fun v => match v with | .strV _ => true | _ => false) then
    .ok (sepJoin ", " (vals.map (fun v =>
      match v with | .strV s => s | _ => "")))
  else .error ()

/-- The location list of the cleaned data; the source iterates
`cleaned_data[location_column]`, which crashes unless it is the list the
location branches store. -/
def locsOfCleaned (sch : Schema) (cleaned : CleanedData) :
    Option (List Value) :=
  match cleaned.lookup sch.location_column with
  | some (.many vs) => some vs
  | _ => none

/-- Outcome of one `add_data` call. -/
inductive AddOutcome where
  | missingRequired : String → AddOutcome
  | invalidEntry : String → AddOutcome
  | cancelled : AddOutcome
  | locFailure : AddOutcome
  | conflict : String → AddOutcome
  | reportCrash : AddOutcome
  | added : AddOutcome
deriving DecidableEq, Repr

/-- Model of `dataAddWindows.add_data`: returns the DataFrame after the call
together with the user-visible outcome. -/
def add_data (sch : Schema) (df : Df) (entries : List (String × String))
    (confirm : Bool) : Df × AddOutcome :=
  match validate_required_fields sch entries with
  | .error m => (df, .missingRequired m)
  | .ok _ =>
    match validate_entries sch entries with
    | .error m => (df, .invalidEntry m)
    | .ok cleaned =>
      if !confirm then (df, .cancelled)
      else
        match locsOfCleaned sch cleaned with
        | none => (df, .locFailure)
        | some locs =>
          let newRows := buildNewRows sch df.columns cleaned locs
          let conflicts := conflictRows sch df newRows
          if conflicts.isEmpty then
            ({ columns := df.columns,
               rows := sortRows sch (df.rows ++ newRows) }, .added)
          else
            match joinComma (conflicts.map
                (fun r => getVal r sch.location_column)) with
            | .ok s =>
              (df, .conflict ("Error: " ++ sch.location_column ++ "(s) " ++ s
                ++ " already occupied."))
            | .error _ => (df, .reportCrash)

/-- The removal mask for one location: every `remove_fields` column of a row
must equal the (location-overridden) cleaned value as trimmed strings.
Reading a removal field that the user did not enter raises `KeyError` in the
source; that is the `none` case. -/
def removeRowMatch (sch : Schema) (cleaned : CleanedData) (loc : Value)
    (row : RecordRow) : Option Bool :=
  if sch.remove_fields.all (fun f =>
      f == sch.location_column || (cleaned.lookup f).isSome) then
    some (sch.remove_fields.all (fun f =>
      let valStr := if f == sch.location_column then pyStr loc
        else pyStrEntry ((cleaned.lookup f).getD (.one .naV))
      stripStr (pandasStr (getVal row f)) == stripStr valStr))
  else none

/-- Matched row positions for one requested location. -/
def removeMatchIdx (sch : Schema) (df : Df) (cleaned : CleanedData)
    (loc : Value) : Option (List Nat) :=
  match removeRowMatch sch cleaned loc [] with
  | none => none
  | some _ =>
    some (((List.range df.rows.length).filter (fun i =>
      (removeRowMatch sch cleaned loc (df.rows.getD i [])).getD false)))

/-- Walk the requested locations, collecting matched indices and the
locations with no match (`conflict_locations` of `remove_data`). -/
def collectRemove (sch : Schema) (df : Df) (cleaned : CleanedData) :
    List Value → Option (List Nat × List Value)
  | [] => some ([], [])
  | loc :: rest =>
    match removeMatchIdx sch df cleaned loc with
    | none => none
    | some idxs =>
      match collectRemove sch df cleaned rest with
      | none => none
      | some (m, c) =>
        if idxs.isEmpty then some (m, loc :: c) else some (idxs ++ m, c)

/-- Drop the rows at the given positions. -/
def dropIdx (rows : List RecordRow) (idxs : List Nat) : List RecordRow :=
  (rows.enum.filter (fun p => !(idxs.contains p.1))).map (fun p => p.2)

/-- Outcome of one `remove_data` call. -/
inductive RemoveOutcome where
  | missingRequired : String → RemoveOutcome
  | invalidEntry : String → RemoveOutcome
  | locFailure : RemoveOutcome
  | fieldFailure : RemoveOutcome
  | notFound : String → RemoveOutcome
  | reportCrash : RemoveOutcome
  | cancelled : RemoveOutcome
  | removed : RemoveOutcome
deriving DecidableEq, Repr

/-- Model of `dataAddWindows.remove_data`. -/
def remove_data (sch : Schema) (df : Df) (entries : List (String × String))
    (confirm : Bool) : Df × RemoveOutcome :=
  match validate_required_fields sch entries with
  | .error m => (df, .missingRequired m)
  | .ok _ =>
    match validate_entries sch entries with
    | .error m => (df, .invalidEntry m)
    | .ok cleaned =>
      match locsOfCleaned sch cleaned with
      | none => (df, .locFailure)
      | some locs =>
        match collectRemove sch df cleaned locs with
        | none => (df, .fieldFailure)
        | some (matched, conflicts) =>
          if conflicts.isEmpty then
            if !confirm then (df, .cancelled)
            else
              ({ columns := df.columns,
                 rows := sortRows sch (dropIdx df.rows matched) }, .removed)
          else
            match joinComma conflicts with
            | .ok s =>
              (df, .notFound ("Error: " ++ sch.location_column ++ "(s) " ++ s
                ++ " do not exist in the inventory."))
            | .error _ => (df, .reportCrash)

/-! The occupancy query (`PickerHelper._validate_and_extract`,
src/picker_helper.py lines 124-213). -/

/-- Constraint extraction: strip the widget text, convert to `int` when
possible, else keep the string. -/
def extractConstraint (raw : String) : Value :=
  let t := stripStr raw
  match pyInt t with
  | some n => .intV n
  | none => .strV t

/-- Numeric reading of a constraint value (`float(value)`), truncated. -/
def constraintNum (v : Value) : Option Int :=
  match v with
  | .intV n => some n
  | .strV s =>
    match parseNumeric s with
    | some p => some p.trunc
    | none => none
  | .naV => none

/-- Numeric reading of a row cell
(`pd.to_numeric(col, errors="coerce")` then `astype(int)` truncation). -/
def rowNum (v : Value) : Option Int :=
  match v with
  | .intV n => some n
  | .strV s =>
    match parseNumeric s with
    | some p => some p.trunc
    | none => none
  | .naV => none

/-- One constraint test on one row as the source computes it: numeric
comparison with `fillna(-1)` whenever the constraint value is numeric,
trimmed-string comparison otherwise. -/
def constraintTest (f : String) (cv : Value) (row : RecordRow) : Bool :=
  match constraintNum cv with
  | some a => ((rowNum (getVal row f)).getD (-1)) == a
  | none => stripStr (pandasStr (getVal row f)) == stripStr (pyStr cv)

/-- Location rendering of step 4: `dropna().astype(str).str.upper().str.strip()`. -/
def filledLoc (locCol : String) (r : RecordRow) : Option String :=
  match getVal r locCol with
  | .naV => none
  | v => some (stripStr (upStr (pandasStr v)))

/-- Model of `PickerHelper._validate_and_extract`: `none` when a required
constraint is empty or the location column is absent, otherwise the set of
filled locations.  The row mask is folded constraint by constraint as in the
source; constraints on columns absent from the frame are skipped. -/
def validate_and_extract (df : Df) (forFilled : List (String × String))
    (locCol : String) : Option (Finset String) :=
  if forFilled.any (fun p => stripStr p.2 = "") then none
  else if !(df.columns.contains locCol) then none
  else
    let reqVals := forFilled.map (fun p => (p.1, extractConstraint p.2))
    let mask := reqVals.foldl
      (fun (m : List Bool) fc =>
        if df.columns.contains fc.1 then
          m.zipWith (fun a b => a && b)
            (df.rows.map (constraintTest fc.1 fc.2))
        else m)
      (df.rows.map (fun _ => true))
    some ((((df.rows.zip mask).filter (fun p => p.2)).map
      (fun p => p.1)).filterMap (filledLoc locCol)).toFinset

/-! The remote store (`DriveManager.upload_file`, src/data_helper.py lines
158-231).  A remote object carries content, a server-assigned `modifiedTime` token,
and its parent container; the store is an association list from file id. -/

structure RemoteObj where
  content : String
  modifiedTime : String
  parent : Option String
deriving DecidableEq, Repr

abbrev RemoteStore := List (String × RemoteObj)

/-- The pre-write metadata read
`service.files().get(fileId=file_id, fields="id, modifiedTime")`: executed
unconditionally, also when `file_id` is `None` (where the request targets no
object and the API answers 404). -/
def filesGetMeta (store : RemoteStore) (fileId : Option String) :
    Except String RemoteObj :=
  match fileId with
  | none => .error "NOT_FOUND"
  | some fid =>
    match store.lookup fid with
    | some obj => .ok obj
    | none => .error "NOT_FOUND"

/-- Replace the content (and server-assigned `modifiedTime`) of an object. -/
def storeUpdate (store : RemoteStore) (fid : String) (content newTime : String) :
    RemoteStore :=
  store.map (fun p =>
    if p.1 = fid then
      (p.1, { content := content, modifiedTime := newTime,
              parent := p.2.parent })
    else p)

/-- Model of `DriveManager.upload_file`.  Returns the store after the call
and `ok fileId` or `error code` (the `(bool, info)` pair of the source).
`newId`/`newTime` stand for the server-chosen id and modification time. -/
def upload_file (store : RemoteStore) (localContent : String)
    (downloadAlterTime : Option String) (fileId : Option String)
    (parentId : Option String) (newId newTime : String) :
    RemoteStore × Except String String :=
  match filesGetMeta store fileId with
  | .error e => (store, .error e)
  | .ok meta =>
    if some meta.modifiedTime ≠ downloadAlterTime then
      (store, .error "STALE_FILE_ERROR")
    else
      match fileId with
      | some fid =>
        (storeUpdate store fid localContent newTime, .ok fid)
      | none =>
        ((newId, { content := localContent, modifiedTime := newTime,
                   parent := parentId }) :: store, .ok newId)

/-! Claim-level notions. -/

/-- The composite spatial key fields: `occupancyKeyFields ∪ {locationField}`. -/
def keyFields (sch : Schema) : List String :=
  sch.for_filled ++ [sch.location_column]

/-- The key-field values of a record. -/
def keyVals (sch : Schema) (r : RecordRow) : List Value :=
  (keyFields sch).map (getVal r)

/-- No two records share identical values across the key fields. -/
def allDiffKeys (sch : Schema) : List RecordRow → Bool
  | [] => true
  | r :: rest =>
    rest.all (fun r2 => keyVals sch r ≠ keyVals sch r2) && allDiffKeys sch rest

theorem allDiffKeys_iff (sch : Schema) (rows : List RecordRow) :
    allDiffKeys sch rows = true ↔
      rows.Pairwise (fun a b => keyVals sch a ≠ keyVals sch b) := by
  induction rows with
  | nil => simp [allDiffKeys]
  | cons r rest ih =>
    simp only [allDiffKeys, Bool.and_eq_true, List.pairwise_cons, ih,
      List.all_eq_true, decide_eq_true_eq]

/-- Reading a built row at a stripped column name. -/
theorem buildRow_lookup (sch : Schema) (cols : List String)
    (cleaned : CleanedData) (loc : Value) (k : String)
    (hnodup : (cols.map stripStr).Nodup) (hk : k ∈ cols.map stripStr) :
    getVal (buildRow sch cols cleaned loc) k =
      builtCell sch cleaned loc k := by
  induction cols with
  | nil => simp at hk
  | cons c0 rest ih =>
    simp only [List.map_cons, List.nodup_cons] at hnodup
    rcases List.mem_cons.mp hk with rfl | hk2
    · simp [buildRow, getVal, List.lookup]
    · have hne : (k == stripStr c0) = false := by
        rw [beq_eq_false_iff_ne]
        intro hcon
        subst hcon
        exact hnodup.1 hk2
      have hrest : getVal (buildRow sch rest cleaned loc) k =
          builtCell sch cleaned loc k := ih hnodup.2 hk2
      simpa [buildRow, getVal, List.lookup, hne] using hrest

/-- Two stringification functions agree on present values. -/
theorem pandasStr_eq_pyStr (v : Value) (h : v ≠ .naV) :
    pandasStr v = pyStr v := by
  rcases v with _ | _ | _ <;> first | rfl | exact absurd rfl h

theorem strip_nan : stripStr "nan" = "nan" := rfl

/-- List-map equality is pointwise. -/
theorem map_eq_of_getVal (sch : Schema) (a b : RecordRow)
    (h : keyVals sch a = keyVals sch b) :
    ∀ c ∈ keyFields sch, getVal a c = getVal b c := by
  intro c hc
  unfold keyVals at h
  exact List.map_inj_left.mp h c hc

/-! C6 claim-side definitions and the mask-fold / filter correspondence. -/

/-- Modelled from the claim text of C6: one constraint matches a row when
the two sides are compared as integers if both parse as numbers, and as
trimmed strings otherwise. -/
def claimTest (f : String) (cv : Value) (row : RecordRow) : Bool :=
  match constraintNum cv, rowNum (getVal row f) with
  | some a, some b => a == b
  | _, _ => stripStr (pandasStr (getVal row f)) == stripStr (pyStr cv)

/-- Modelled from the claim text of C6: the occupancy query result as the
claim describes it (rows matching all constraints per `claimTest`, then the
distinct uppercased-trimmed location values). -/
def spec_occupied (df : Df) (forFilled : List (String × String))
    (locCol : String) : Option (Finset String) :=
  if forFilled.any (fun p => stripStr p.2 = "") then none
  else if !(df.columns.contains locCol) then none
  else
    let reqVals := forFilled.map (fun p => (p.1, extractConstraint p.2))
    some (((df.rows.filter (fun r => reqVals.all (fun fc =>
      !(df.columns.contains fc.1) || claimTest fc.1 fc.2 r))).filterMap
        (filledLoc locCol)).toFinset)

/-- The amended C6 semantics: the comparison mode is chosen per constraint —
numeric (with unparseable row values read as the `-1` sentinel and values
truncated toward zero) whenever the constraint value parses as a number,
trimmed-string otherwise. -/
def spec_occupied_amended (df : Df) (forFilled : List (String × String))
    (locCol : String) : Option (Finset String) :=
  if forFilled.any (fun p => stripStr p.2 = "") then none
  else if !(df.columns.contains locCol) then none
  else
    let reqVals := forFilled.map (fun p => (p.1, extractConstraint p.2))
    some (((df.rows.filter (fun r => reqVals.all (fun fc =>
      !(df.columns.contains fc.1) || constraintTest fc.1 fc.2 r))).filterMap
        (filledLoc locCol)).toFinset)

theorem zipWith_and_map (l : List RecordRow) (g h : RecordRow → Bool) :
    (l.map g).zipWith (fun a b => a && b) (l.map h) =
      l.map (fun x => g x && h x) := by
  induction l with
  | nil => rfl
  | cons x r ih => simp [ih]

theorem mask_fold (rows : List RecordRow) (cols : List String)
    (cs : List (String × Value)) (g : RecordRow → Bool) :
    cs.foldl (fun (m : List Bool) fc =>
        if cols.contains fc.1 then
          m.zipWith (fun a b => a && b) (rows.map (constraintTest fc.1 fc.2))
        else m) (rows.map g) =
      rows.map (fun r => g r && cs.all (fun fc =>
        !(cols.contains fc.1) || constraintTest fc.1 fc.2 r)) := by
  induction cs generalizing g with
  | nil => simp
  | cons fc cs ih =>
    by_cases hc : cols.contains fc.1
    · have hc2 : fc.1 ∈ cols := by simpa using hc
      simp only [List.foldl_cons, if_pos hc, zipWith_and_map]
      rw [ih (fun r => g r && constraintTest fc.1 fc.2 r)]
      apply List.map_congr_left
      intro r _
      simp [hc2, Bool.and_assoc]
    · have hc2 : ¬ fc.1 ∈ cols := by simpa using hc
      simp only [List.foldl_cons, if_neg hc]
      rw [ih g]
      apply List.map_congr_left
      intro r _
      simp [hc2]

theorem zip_mask_filter (rows : List RecordRow) (p : RecordRow → Bool) :
    ((rows.zip (rows.map p)).filter (fun q => q.2)).map (fun q => q.1) =
      rows.filter p := by
  induction rows with
  | nil => rfl
  | cons r rest ih =>
    have hcons : (r :: rest).zip ((r :: rest).map p) =
        (r, p r) :: rest.zip (rest.map p) := rfl
    rw [hcons]
    by_cases hp : p r <;> simp [List.filter_cons, hp, ih]

/-! Concrete fixtures used by counterexamples and witnesses. -/

/-- A letter-number-location schema in the shape of the -20 freezer
configuration (integer key field, letter-number location). -/
def schLN : Schema := {
  columns_to_sort_by := ["Rack", "Box"], for_filled := ["Rack"],
  location_column := "Box", int_fields := ["Rack"],
  remove_fields := ["Rack", "Box"], label_column := "Label",
  letterNums := ["Box"], date_column := none, required_fields := ["Box"] }

/-- An integer-location schema in the shape of the grid-dewar
configuration (the location column is an integer field). -/
def schInt : Schema := {
  columns_to_sort_by := ["Cane", "Slot"], for_filled := ["Cane"],
  location_column := "Slot", int_fields := ["Cane", "Slot"],
  remove_fields := ["Cane", "Slot"], label_column := "Label",
  letterNums := [], date_column := none, required_fields := [] }

/-- A schema with only a date column. -/
def schDate : Schema := {
  columns_to_sort_by := [], for_filled := [], location_column := "",
  int_fields := [], remove_fields := [], label_column := "",
  letterNums := [], date_column := some "Date Frozen",
  required_fields := [] }

/-- An empty two-column frame. -/
def dfEmptyLN : Df := {
  columns := ["Rack", "Box"], rows := [] }

/-- A frame holding one record with a missing key-field value. -/
def dfNaRow : Df := {
  columns := ["Rack", "Box"],
  rows := [[("Rack", Value.naV), ("Box", Value.strV "A1")]] }

/-- A grid-dewar-shaped frame with one cleaned record. -/
def dfIntRow : Df := {
  columns := ["Cane", "Slot"],
  rows := [[("Cane", Value.intV 1), ("Slot", Value.intV 3)]] }

/-- A frame with a non-numeric value in a key column. -/
def dfPick : Df := {
  columns := ["Rack", "Box"],
  rows := [[("Rack", Value.strV "abc"), ("Box", Value.strV "A1")]] }

/-- C3: for every upload carrying a captured version token T against a
remote object whose current token differs, `upload_file` returns
`STALE_FILE_ERROR` and the remote store is unchanged (no write happens). -/
theorem spec_stale_write_rejection (store : RemoteStore)
    (content T fid : String) (obj : RemoteObj) (parent : Option String)
    (newId newTime : String)
    (hobj : store.lookup fid = some obj)
    (hne : obj.modifiedTime ≠ T) :
    upload_file store content (some T) (some fid) parent newId newTime =
      (store, .error "STALE_FILE_ERROR") := by
  simp only [upload_file, filesGetMeta, hobj]
  rw [if_pos (by simpa using hne)]

/-- Witness for C3 at a one-object store with mismatching tokens. -/
theorem spec_stale_write_rejection_witness :
    upload_file [("id1", ⟨"bytes", "t1", none⟩)] "newbytes" (some "t0")
        (some "id1") none "nid" "t2" =
      ([("id1", ⟨"bytes", "t1", none⟩)], .error "STALE_FILE_ERROR") :=
  spec_stale_write_rejection [("id1", ⟨"bytes", "t1", none⟩)] "newbytes"
    "t0" "id1" ⟨"bytes", "t1", none⟩ none "nid" "t2" (by rfl) (by decide)

/-- C9 (code-bug evidence): invoked without a remote identifier, the upload
never creates anything — the unconditional pre-write metadata read targets
no object, fails `NOT_FOUND`, and the create branch is unreachable; the
store is returned unchanged and no new identifier is produced. -/
theorem spec_upload_create_unreachable (store : RemoteStore)
    (content : String) (t : Option String) (parent : Option String)
    (newId newTime : String) :
    upload_file store content t none parent newId newTime =
      (store, .error "NOT_FOUND") := rfl

/-- C5: bulk normalization is idempotent — cleaning a cleaned table returns
it unchanged. -/
theorem spec_clean_idempotent (sch : Schema) (t t' : Table)
    (h : clean_dataframe sch t = .ok t') :
    clean_dataframe sch t' = .ok t' :=
  clean_dataframe_idem sch t t' h

/-- Witness for C5 on a small raw table exercising all four column roles. -/
theorem spec_clean_idempotent_witness :
    clean_dataframe schLN [("Rack", [Value.strV " 3 ", Value.naV]),
        ("Box", [Value.strV " a1 ", Value.strV "zz"]),
        ("Label", [Value.strV " hi ", Value.strV "nan"])] =
      .ok [("Rack", [Value.intV 3, Value.intV (-1)]),
        ("Box", [Value.strV "A1", Value.strV ""]),
        ("Label", [Value.strV "hi", Value.strV ""])] ∧
    clean_dataframe schLN [("Rack", [Value.intV 3, Value.intV (-1)]),
        ("Box", [Value.strV "A1", Value.strV ""]),
        ("Label", [Value.strV "hi", Value.strV ""])] =
      .ok [("Rack", [Value.intV 3, Value.intV (-1)]),
        ("Box", [Value.strV "A1", Value.strV ""]),
        ("Label", [Value.strV "hi", Value.strV ""])] :=
  ⟨by rfl, spec_clean_idempotent schLN
    [("Rack", [Value.strV " 3 ", Value.naV]),
      ("Box", [Value.strV " a1 ", Value.strV "zz"]),
      ("Label", [Value.strV " hi ", Value.strV "nan"])]
    [("Rack", [Value.intV 3, Value.intV (-1)]),
      ("Box", [Value.strV "A1", Value.strV ""]),
      ("Label", [Value.strV "hi", Value.strV ""])]
    (by rfl)⟩

/-- C7: the unparseable date "13/40/2024" fails single-record validation
with an error naming the date field, while bulk cleaning maps the same
value to the empty string without error. -/
theorem spec_date_validation_asymmetry :
    validate_entries schDate [("Date Frozen", "13/40/2024")] =
      .error "Invalid format for Date Frozen. Please use MM/DD/YYYY (e.g., 06/30/2025)."
    ∧ clean_dataframe schDate [("Date Frozen", [Value.strV "13/40/2024"])] =
      .ok [("Date Frozen", [Value.strV ""])] :=
  ⟨rfl, rfl⟩

/-- C8 (code-bug evidence): the two date paths disagree on the same
calendar date — bulk cleaning canonicalizes to the four-digit-year form
"06/30/2025" while `validate_entries` (despite its docstring and its error
message promising MM/DD/YYYY) emits the two-digit-year form "06/30/25". -/
theorem spec_date_format_mismatch :
    clean_dataframe schDate [("Date Frozen", [Value.strV "06/30/2025"])] =
      .ok [("Date Frozen", [Value.strV "06/30/2025"])]
    ∧ validate_entries schDate [("Date Frozen", "06/30/2025")] =
      .ok [("Date Frozen", Entry.one (Value.strV "06/30/25"))]
    ∧ "06/30/2025" ≠ "06/30/25" :=
  ⟨rfl, rfl, by decide⟩

/-- C4 (code-bug evidence): on a schema whose location field holds integer
values, a conflicting add does not produce the promised conflict message —
joining the Int64 location values raises `TypeError` (the `reportCrash`
outcome) and no message is shown; the frame is left unchanged. -/
theorem spec_conflict_report_crash :
    add_data schInt dfIntRow [("Cane", "1"), ("Slot", "3")] true =
      (dfIntRow, .reportCrash) := rfl

/-- C6 counterexample: the claim's per-row comparison rule disagrees with
the code.  With the numeric constraint "-1" and a row whose key value
"abc" is not numeric, the claim's semantics compares trimmed strings and
excludes the row, but the code coerces the row value to the `-1` sentinel
and includes it, so its location "A1" is reported occupied. -/
theorem spec_occupancy_counterexample :
    validate_and_extract dfPick [("Rack", "-1")] "Box" ≠
      spec_occupied dfPick [("Rack", "-1")] "Box" := by decide

/-- C6 amended: the occupancy query equals the amended semantics — the
comparison mode is chosen per constraint (numeric with `-1` sentinel and
truncation whenever the constraint value parses as a number, trimmed-string
otherwise), and the result is the set of distinct uppercased-trimmed
location values of the matching rows. -/
theorem spec_occupancy_amended (df : Df) (cs : List (String × String))
    (locCol : String) :
    validate_and_extract df cs locCol = spec_occupied_amended df cs locCol := by
  unfold validate_and_extract spec_occupied_amended
  by_cases h1 : (cs.any (fun p => stripStr p.2 = "")) = true
  · simp only [h1, if_pos]
  · simp only [Bool.not_eq_true] at h1
    simp only [h1, Bool.false_eq_true, if_false]
    by_cases h2 : df.columns.contains locCol
    · simp only [h2, Bool.not_true, Bool.false_eq_true, if_false]
      congr 1
      rw [mask_fold df.rows df.columns
        (cs.map (fun p => (p.1, extractConstraint p.2))) (fun _ => true)]
      rw [zip_mask_filter df.rows (fun r => true &&
        (cs.map (fun p => (p.1, extractConstraint p.2))).all (fun fc =>
          !(df.columns.contains fc.1) || constraintTest fc.1 fc.2 r))]
      simp only [Bool.true_and]
    · simp only [Bool.not_eq_true] at h2
      simp only [h2, Bool.not_false, if_true]

/-- C2: both batch operations are atomic — each call either leaves the
frame unchanged (any required-field failure, validation failure, cancel,
crash, conflict, or unmatched location) or commits exactly the full
requested batch: every candidate row appended (add), or exactly the rows
matched by every requested location dropped (remove). -/
theorem spec_batch_atomicity (sch : Schema) (df : Df)
    (entries : List (String × String)) (confirm : Bool) :
    ((add_data sch df entries confirm).1 = df ∨
      ∃ cleaned locs,
        validate_entries sch entries = .ok cleaned ∧
        locsOfCleaned sch cleaned = some locs ∧
        conflictRows sch df (buildNewRows sch df.columns cleaned locs) = [] ∧
        ((add_data sch df entries confirm).1).rows.Perm
          (df.rows ++ buildNewRows sch df.columns cleaned locs))
    ∧ ((remove_data sch df entries confirm).1 = df ∨
      ∃ cleaned locs matched,
        validate_entries sch entries = .ok cleaned ∧
        locsOfCleaned sch cleaned = some locs ∧
        collectRemove sch df cleaned locs = some (matched, []) ∧
        ((remove_data sch df entries confirm).1).rows.Perm
          (dropIdx df.rows matched)) := by
  constructor
  · rcases h1 : validate_required_fields sch entries with m | u
    · left
      simp [add_data, h1]
    · rcases h2 : validate_entries sch entries with m | cleaned
      · left
        simp [add_data, h1, h2]
      · by_cases h3 : confirm
        · rcases h4 : locsOfCleaned sch cleaned with _ | locs
          · left
            simp [add_data, h1, h2, h3, h4]
          · by_cases h5 :
              (conflictRows sch df (buildNewRows sch df.columns cleaned locs)).isEmpty
            · right
              refine ⟨cleaned, locs, rfl, h4, by simpa using h5, ?_⟩
              simp only [add_data, h1, h2, h3, h4, h5, Bool.not_true,
                Bool.false_eq_true, if_false]
              exact List.perm_insertionSort _ _
            · left
              rcases h6 : joinComma ((conflictRows sch df
                  (buildNewRows sch df.columns cleaned locs)).map
                    (fun r => getVal r sch.location_column)) with e | s
              · simp [add_data, h1, h2, h3, h4, h5, h6]
              · simp [add_data, h1, h2, h3, h4, h5, h6]
        · left
          simp [add_data, h1, h2, h3]
  · rcases h1 : validate_required_fields sch entries with m | u
    · left
      simp [remove_data, h1]
    · rcases h2 : validate_entries sch entries with m | cleaned
      · left
        simp [remove_data, h1, h2]
      · rcases h4 : locsOfCleaned sch cleaned with _ | locs
        · left
          simp [remove_data, h1, h2, h4]
        · rcases h5 : collectRemove sch df cleaned locs with _ | p
          · left
            simp [remove_data, h1, h2, h4, h5]
          · obtain ⟨matched, conflicts⟩ := p
            by_cases h6 : conflicts.isEmpty
            · by_cases h7 : confirm
              · right
                refine ⟨cleaned, locs, matched, rfl, h4, ?_, ?_⟩
                · rw [h5]
                  congr
                  simpa using h6
                · simp only [remove_data, h1, h2, h4, h5, h6, h7,
                    Bool.not_true, Bool.false_eq_true, if_false, if_pos]
                  exact List.perm_insertionSort _ _
              · left
                simp [remove_data, h1, h2, h4, h5, h6, h7]
            · left
              rcases h8 : joinComma conflicts with e | s
              · simp [remove_data, h1, h2, h4, h5, h6, h8]
              · simp [remove_data, h1, h2, h4, h5, h6, h8]

/-- An empty three-column frame (the `Label` column takes no user input
in the C10 witness). -/
def dfThreeCols : Df := {
  columns := ["Rack", "Box", "Label"], rows := [] }

/-- C10: in an accepted add, every (stripped) frame column for which the
user supplied no input is stored as the missing value `None` in each newly
appended record — not as the canonical empty string or the `-1` sentinel —
so the frame after an accepted add need not be in bulk-cleaned form. -/
theorem spec_missing_entry_stored_none (sch : Schema) (df : Df)
    (entries : List (String × String)) (confirm : Bool) (df' : Df)
    (cleaned : CleanedData) (col : String)
    (hcols : (df.columns.map stripStr).Nodup)
    (hval : validate_entries sch entries = .ok cleaned)
    (hmem : col ∈ df.columns)
    (hmiss : cleaned.lookup (stripStr col) = none)
    (hadd : add_data sch df entries confirm = (df', .added)) :
    ∃ newRows, df'.rows.Perm (df.rows ++ newRows) ∧
      ∀ r ∈ newRows, getVal r (stripStr col) = .naV := by
  rcases h1 : validate_required_fields sch entries with m | u
  · simp only [add_data, h1] at hadd
    simp at hadd
  · simp only [add_data, h1, hval] at hadd
    by_cases h3 : confirm = true
    · simp only [h3, Bool.not_true, Bool.false_eq_true, if_false] at hadd
      rcases h4 : locsOfCleaned sch cleaned with _ | locs
      · simp only [h4] at hadd
        simp at hadd
      · simp only [h4] at hadd
        by_cases h5 :
            (conflictRows sch df (buildNewRows sch df.columns cleaned locs)).isEmpty = true
        · rw [if_pos h5] at hadd
          injection hadd with h7 h8
          subst h7
          refine ⟨buildNewRows sch df.columns cleaned locs,
            List.perm_insertionSort _ _, ?_⟩
          intro r hr
          obtain ⟨l, _, rfl⟩ := List.mem_map.mp hr
          rw [buildRow_lookup sch df.columns cleaned l (stripStr col) hcols
            (List.mem_map_of_mem stripStr hmem)]
          unfold builtCell
          rw [hmiss]
        · rw [if_neg h5] at hadd
          rcases h6 : joinComma ((conflictRows sch df
              (buildNewRows sch df.columns cleaned locs)).map
                (fun r => getVal r sch.location_column)) with e | s <;>
            simp only [h6] at hadd <;> simp at hadd
    · simp only [eq_false_of_ne_true h3, Bool.not_false, if_true] at hadd
      simp at hadd

/-- Witness for C10: an accepted add on the three-column frame where the
`Label` column was left empty; the appended record stores `None` there. -/
theorem spec_missing_entry_stored_none_witness :
    ∃ newRows, (add_data schLN dfThreeCols
        [("Rack", "1"), ("Box", "A1")] true).1.rows.Perm
          (dfThreeCols.rows ++ newRows) ∧
      ∀ r ∈ newRows, getVal r (stripStr "Label") = .naV :=
  spec_missing_entry_stored_none schLN dfThreeCols
    [("Rack", "1"), ("Box", "A1")] true _
    [("Rack", .one (.intV 1)), ("Box", .many [.strV "A1"])] "Label"
    (by decide) (by rfl) (by decide) (by rfl) (by rfl)

/-- C1 counterexample: the claim fails on the code in two concrete accepted
adds.  First, a submitted location list with a repeated location
("A1, A1") is accepted against an empty frame and appends two identical
records.  Second, a record with a missing key value slips past the
conflict mask (which stringifies the stored side as "nan" and the
candidate side as "None"), so an accepted add duplicates its key. -/
theorem spec_uniqueness_counterexample :
    ((add_data schLN dfEmptyLN [("Rack", "1"), ("Box", "A1, A1")] true).2 =
        .added ∧
      allDiffKeys schLN
        (add_data schLN dfEmptyLN [("Rack", "1"), ("Box", "A1, A1")]
          true).1.rows = false)
    ∧ ((add_data schLN dfNaRow [("Rack", ""), ("Box", "A1")] true).2 =
        .added ∧
      allDiffKeys schLN
        (add_data schLN dfNaRow [("Rack", ""), ("Box", "A1")]
          true).1.rows = false) :=
  ⟨⟨rfl, rfl⟩, ⟨rfl, rfl⟩⟩

theorem locsOfCleaned_lookup (sch : Schema) (cleaned : CleanedData)
    (locs : List Value) (h : locsOfCleaned sch cleaned = some locs) :
    cleaned.lookup sch.location_column = some (.many locs) := by
  unfold locsOfCleaned at h
  rcases hl : cleaned.lookup sch.location_column with _ | e
  · rw [hl] at h
    exact absurd h (by simp)
  · rcases e with v | vs
    · rw [hl] at h
      exact absurd h (by simp)
    · rw [hl] at h
      obtain rfl := Option.some.inj h
      rfl

theorem mask_cell_of_eq (v : Value)
    (hne : stripStr (pandasStr v) ≠ "nan") :
    (stripStr (pandasStr v) == stripStr (pyStr v)) = true := by
  rcases v with n | s | _
  · simp [pandasStr, pyStr]
  · simp [pandasStr, pyStr]
  · exact absurd rfl hne

/-- C1 amended: after an accepted add the frame keeps the key-uniqueness
invariant, provided (as the counterexamples force) the submitted location
list holds no repeated location (as stored and stringified) and no existing
record has a missing ("nan"-rendered) key-field value; the frame's stripped
column names are assumed distinct and to include the location column. -/
theorem spec_uniqueness_amended (sch : Schema) (df : Df)
    (entries : List (String × String)) (confirm : Bool) (df' : Df)
    (hinv : allDiffKeys sch df.rows = true)
    (hnan : ∀ r ∈ df.rows, ∀ c ∈ keyFields sch,
      stripStr (pandasStr (getVal r c)) ≠ "nan")
    (hcols : (df.columns.map stripStr).Nodup)
    (hloc : sch.location_column ∈ df.columns.map stripStr)
    (hlocs : ∀ cleaned locs, validate_entries sch entries = .ok cleaned →
      locsOfCleaned sch cleaned = some locs →
      (locs.map (fun l =>
        stripStr (pandasStr (storedVal sch sch.location_column l)))).Nodup)
    (hadd : add_data sch df entries confirm = (df', .added)) :
    allDiffKeys sch df'.rows = true := by
  rcases h1 : validate_required_fields sch entries with m | u
  · simp only [add_data, h1] at hadd
    simp at hadd
  · rcases h2 : validate_entries sch entries with m | cleaned
    · simp only [add_data, h1, h2] at hadd
      simp at hadd
    · simp only [add_data, h1, h2] at hadd
      by_cases h3 : confirm = true
      · simp only [h3, Bool.not_true, Bool.false_eq_true, if_false] at hadd
        rcases h4 : locsOfCleaned sch cleaned with _ | locs
        · simp only [h4] at hadd
          simp at hadd
        · simp only [h4] at hadd
          by_cases h5 : (conflictRows sch df
              (buildNewRows sch df.columns cleaned locs)).isEmpty = true
          · rw [if_pos h5] at hadd
            injection hadd with h7 h8
            subst h7
            have hlook := locsOfCleaned_lookup sch cleaned locs h4
            have hkey : ∀ l, getVal (buildRow sch df.columns cleaned l)
                sch.location_column = storedVal sch sch.location_column l := by
              intro l
              rw [buildRow_lookup sch df.columns cleaned l
                sch.location_column hcols hloc]
              simp [builtCell, hlook]
            have hlocmem : sch.location_column ∈ keyFields sch := by
              unfold keyFields
              simp
            rw [allDiffKeys_iff]
            refine List.Perm.pairwise
              (List.perm_insertionSort
                (fun a b => rowLEb sch a b = true) _).symm ?_
              (fun hab => fun he => hab he.symm)
            rw [List.pairwise_append]
            refine ⟨(allDiffKeys_iff sch df.rows).mp hinv, ?_, ?_⟩
            · unfold buildNewRows
              rw [List.pairwise_map]
              have hnd := hlocs cleaned locs h2 h4
              have hp : List.Pairwise (fun a b =>
                  stripStr (pandasStr (storedVal sch sch.location_column a)) ≠
                  stripStr (pandasStr (storedVal sch sch.location_column b)))
                  locs := List.pairwise_map.mp hnd
              refine hp.imp ?_
              intro a b hne heq
              have hq := map_eq_of_getVal sch _ _ heq
                sch.location_column hlocmem
              rw [hkey a, hkey b] at hq
              exact hne (by rw [hq])
            · intro old hold rb hb heq
              obtain ⟨l, hl, rfl⟩ := List.mem_map.mp hb
              have hpt := map_eq_of_getVal sch old
                (buildRow sch df.columns cleaned l) heq
              have hmask : maskMatch sch (buildRow sch df.columns cleaned l)
                  old = true := by
                unfold maskMatch
                rw [Bool.and_eq_true]
                constructor
                · rw [List.all_eq_true]
                  intro c hc
                  have hce := hpt c (by
                    unfold keyFields
                    exact List.mem_append_left _ hc)
                  rw [hce]
                  exact mask_cell_of_eq _ (by
                    rw [← hce]
                    exact hnan old hold c (by
                      unfold keyFields
                      exact List.mem_append_left _ hc))
                · have hce := hpt sch.location_column hlocmem
                  rw [hce]
                  exact mask_cell_of_eq _ (by
                    rw [← hce]
                    exact hnan old hold sch.location_column hlocmem)
              have hmem2 : old ∈ conflictRows sch df
                  (buildNewRows sch df.columns cleaned locs) := by
                unfold conflictRows
                rw [List.mem_flatMap]
                refine ⟨buildRow sch df.columns cleaned l, ?_, ?_⟩
                · unfold buildNewRows
                  exact List.mem_map_of_mem _ hl
                · rw [List.mem_filter]
                  exact ⟨hold, hmask⟩
              rw [List.isEmpty_iff] at h5
              rw [h5] at hmem2
              simp at hmem2
          · rw [if_neg h5] at hadd
            rcases h6 : joinComma ((conflictRows sch df
                (buildNewRows sch df.columns cleaned locs)).map
                  (fun r => getVal r sch.location_column)) with e | s <;>
              simp only [h6] at hadd <;> simp at hadd
      · simp only [eq_false_of_ne_true h3, Bool.not_false, if_true] at hadd
        simp at hadd

/-- A one-record frame with a fully present key. -/
def dfOneRow : Df := {
  columns := ["Rack", "Box"],
  rows := [[("Rack", Value.intV 1), ("Box", Value.strV "A2")]] }

/-- Witness for the amended C1 at a concrete accepted add. -/
theorem spec_uniqueness_amended_witness :
    allDiffKeys schLN (add_data schLN dfOneRow
      [("Rack", "1"), ("Box", "A1")] true).1.rows = true :=
  spec_uniqueness_amended schLN dfOneRow [("Rack", "1"), ("Box", "A1")] true
    (add_data schLN dfOneRow [("Rack", "1"), ("Box", "A1")] true).1
    (by decide) (by decide) (by decide) (by decide)
    (by
      intro cleaned locs hv hl
      have hv2 : (Except.ok [("Rack", Entry.one (Value.intV 1)),
          ("Box", Entry.many [Value.strV "A1"])] :
            Except String CleanedData) = .ok cleaned := hv
      obtain rfl := Except.ok.inj hv2
      have hl2 : (some [Value.strV "A1"] : Option (List Value)) = some locs := hl
      obtain rfl := Option.some.inj hl2
      decide)
    (by rfl)
